import Mathlib

/-!
Verification of the FIT-stream-to-table decoder `fit_to_pandas` from
`nominal-garmin/__main__.py`.

The decoder walks the sequence of FIT frames, keeps the data frames named
`"record"`, builds one row per record frame from the fields whose name does
not contain the substring `"unknown"`, concatenates the rows into a table
(pandas `concat` semantics: columns in first-seen order, absent cells become
the missing marker `NaN`), and finally rescales the `position_lat` and
`position_long` columns from semicircles to degrees via `v / (2^32 / 360)`.

Modelling choices, all taken from the source:
* the two Python names `check_list` and `good_list` are initialised by
  `check_list = good_list = []`, i.e. they alias one and the same list
  object; the model therefore has a single list (field `check_list` of
  `LoopState`) playing both roles;
* Python dicts are association lists with unique keys (`dictInsert` updates
  the first occurrence in place, preserving key order, and appends fresh
  keys at the end);
* pandas scalars are modelled by `Value`; float arithmetic is modelled by
  exact rational arithmetic (`ℚ`); `NaN` is `Value.missing`;
* a Python exception aborting the call is an `Except.error`:
  `PyError.typeError` for `None + 1` (and for applying the rescaling lambda
  to a non-numeric cell), `PyError.keyError c` for `df[c]` when `c` is not
  a column of the data frame.
-/

namespace NominalGarmin

/-- A decoded scalar value carried by a FIT field / a pandas cell.
Floats are modelled as exact rationals; `missing` is pandas `NaN`. -/
inductive Value where
  | int (n : ℤ)
  | rat (q : ℚ)
  | str (s : String)
  | missing
deriving DecidableEq, Repr

/-- A named field of a FIT data message. -/
structure Field where
  name : String
  value : Value
deriving DecidableEq, Repr

/-- A frame produced by `fitdecode.FitReader`: either a data message
(`FitDataMessage`, with a name and fields) or any other frame kind
(header, definition message, CRC), which the decoder skips. -/
inductive Frame where
  | data (name : String) (fields : List Field)
  | other
deriving DecidableEq, Repr

/-- The Python exceptions the decoder can raise: `TypeError` from
`None + 1` in the tally update (or from rescaling a non-numeric cell) and
`KeyError` from indexing a column absent from the data frame. -/
inductive PyError where
  | typeError
  | keyError (col : String)
deriving DecidableEq, Repr

/-- A row dictionary: field name to value, insertion-ordered, unique keys. -/
abbrev Row := List (String × Value)

/-- The materialized pandas data frame: column labels plus the row dicts. -/
structure Table where
  columns : List String
  rows : List Row
deriving DecidableEq, Repr

/-- Test whether the char list `p` is a prefix of `s`. -/
def isPrefixL : List Char → List Char → Bool
  | [], _ => true
  | _ :: _, [] => false
  | a :: as, b :: bs => a == b && isPrefixL as bs

/-- Test whether the char list `p` occurs as a contiguous substring of
`s` at any position (Python `s.find(p) >= 0`). -/
def hasSub (p : List Char) : List Char → Bool
  | [] => p.isEmpty
  | c :: s => isPrefixL p (c :: s) || hasSub p s

/-- The test `field.name.find("unknown") >= 0` of the source: the reserved
placeholder marker `"unknown"` occurs anywhere in the name. -/
def nameHasUnknown (name : String) : Bool :=
  hasSub ("unknown".data) name.data

/-- Python dict assignment `d[k] = v` on an association list with unique
keys: update the (first) binding of `k` in place, else append `(k, v)`. -/
def dictInsert {α : Type} : List (String × α) → String → α → List (String × α)
  | [], k, v => [(k, v)]
  | p :: r, k, v => if p.1 = k then (k, v) :: r else p :: dictInsert r k v

/-- Python dict lookup `d.get(k)`: value of the first binding of `k`. -/
def rowLookup {α : Type} (k : String) : List (String × α) → Option α
  | [] => none
  | p :: r => if p.1 = k then some p.2 else rowLookup k r

/-- The pandas cell at column `c` of row dict `r`: the stored value, or the
missing marker `NaN` when the row has no binding for `c`. -/
def cellD (r : Row) (c : String) : Value :=
  (rowLookup c r).getD Value.missing

/-- The source's `frame.get_value(field_name)`: the value of the (first) field with the
given name. The decoder only calls it with names of fields of the frame. -/
def get_value (fields : List Field) (name : String) : Value :=
  match fields.find? (fun f => f.name = name) with
  | some f => f.value
  | none => Value.missing

/-- One iteration of `for field in frame.fields` (source lines 145-152):
skip the field if its name contains `"unknown"`; otherwise register the
name in `good_list` when new (`acc.1`) and write the value into `row_dict`
(`acc.2`). -/
def fieldStep (fields : List Field) (acc : List String × Row) (f : Field) :
    List String × Row :=
  if nameHasUnknown f.name then acc
  else
    ((if f.name ∉ acc.1 ∧ nameHasUnknown f.name = false
      then acc.1 ++ [f.name] else acc.1),
     dictInsert acc.2 f.name (get_value fields f.name))

/-- The whole field loop of one record frame, started from the current
`good_list` and a fresh empty `row_dict`. -/
def fieldLoop (fields : List Field) (good_list : List String) :
    List String × Row :=
  fields.foldl (fieldStep fields) (good_list, [])

/-- The row dict a record frame produces. The row component of `fieldLoop`
does not depend on the registry it starts from (`fieldLoop_snd`). -/
def recordRow (fields : List Field) : Row :=
  (fieldLoop fields []).2

/-- Loop state of `fit_to_pandas`. `check_list = good_list = []` in the
source binds both names to one list object, so a single list serves as the
tally's name list and as the known-field registry. `list_check` is the
diagnostic name-to-count dict, `rows` the accumulated row dicts. -/
structure LoopState where
  check_list : List String
  list_check : List (String × Nat)
  rows : List Row
deriving DecidableEq, Repr

/-- The initial state: one empty shared list, empty dict, empty frame. -/
def initState : LoopState := ⟨[], [], []⟩

/-- The tally update (source lines 135-139). When the frame name is already
in `check_list` but absent from `list_check` — possible only through the
aliasing with `good_list` — `list_check.get(name)` is `None` and
`None + 1` raises `TypeError`. -/
def tallyStep (st : LoopState) (name : String) : Except PyError LoopState :=
  if name ∉ st.check_list then
    .ok { st with check_list := st.check_list ++ [name],
                  list_check := dictInsert st.list_check name 1 }
  else
    match rowLookup name st.list_check with
    | some c => .ok { st with list_check := dictInsert st.list_check name (c + 1) }
    | none => .error PyError.typeError

/-- Processing of one frame (source lines 131-157): skip non-data frames;
for a data frame update the tally, then, when the name is `"record"`, run
the field loop (which also grows the shared list) and append the row. -/
def step (st : LoopState) : Frame → Except PyError LoopState
  | Frame.other => .ok st
  | Frame.data name fields =>
    match tallyStep st name with
    | .error e => .error e
    | .ok st₁ =>
      if name = "record" then
        let p := fieldLoop fields st₁.check_list
        .ok { st₁ with check_list := p.1, rows := st₁.rows ++ [p.2] }
      else .ok st₁

/-- The frame loop: fold `step` over the frame sequence, aborting on the
first raised exception. -/
def runFrames : LoopState → List Frame → Except PyError LoopState
  | st, [] => .ok st
  | st, fr :: frs =>
    match step st fr with
    | .error e => .error e
    | .ok st' => runFrames st' frs

/-- Add one column label if not already present (pandas index union step). -/
def addCol (acc : List String) (k : String) : List String :=
  if k ∈ acc then acc else acc ++ [k]

/-- The keys of a row dict, in insertion order. -/
def rowKeys (r : Row) : List String := r.map Prod.fst

/-- Column labels of the iterated `pd.concat`: the union of the rows' keys
in first-seen order (starting from the empty `pd.DataFrame([])`). -/
def concatColumns (rows : List Row) : List String :=
  rows.foldl (fun acc r => (rowKeys r).foldl addCol acc) []

/-- The semicircles-to-degrees rescaling `x / ((2**32) / 360)` of the
source, over exact rationals. -/
def scaleQ (q : ℚ) : ℚ := q / ((2 ^ 32 : ℚ) / 360)

/-- The rescaling lambda applied to one cell: numbers are rescaled, `NaN`
stays `NaN` (`NaN / c` is `NaN`), a non-numeric cell raises `TypeError`. -/
def normValue : Value → Except PyError Value
  | Value.int n => .ok (Value.rat (scaleQ n))
  | Value.rat q => .ok (Value.rat (scaleQ q))
  | Value.missing => .ok Value.missing
  | Value.str _ => .error PyError.typeError

/-- A `List.mapM` specialised to `Except` by structural recursion: apply `g`
to each element, aborting on the first error. -/
def exMap {α β : Type} (g : α → Except PyError β) : List α → Except PyError (List β)
  | [] => .ok []
  | a :: l =>
    match g a with
    | .error e => .error e
    | .ok b =>
      match exMap g l with
      | .error e => .error e
      | .ok l' => .ok (b :: l')

/-- The update `df[c] = df[c].apply(lambda x: x / ((2**32) / 360))`: `df[c]` raises
`KeyError` when `c` is not a column; otherwise every cell of the column
(including `NaN` cells of rows lacking the field) goes through the lambda
and is written back, the column set unchanged. -/
def normalizeColumn (t : Table) (c : String) : Except PyError Table :=
  if c ∈ t.columns then
    match exMap (fun r =>
        match normValue (cellD r c) with
        | .error e => .error e
        | .ok v => .ok (dictInsert r c v)) t.rows with
    | .error e => .error e
    | .ok rows => .ok { columns := t.columns, rows := rows }
  else .error (PyError.keyError c)

/-- The post-loop normalization pass (source lines 160-163):
`for column in ["position_lat", "position_long"]`, in that order, on the
table materialized from the accumulated rows. -/
def normPipeline (rows : List Row) : Except PyError Table :=
  match normalizeColumn { columns := concatColumns rows, rows := rows } "position_lat" with
  | .error e => .error e
  | .ok t₁ =>
    match normalizeColumn t₁ "position_long" with
    | .error e => .error e
    | .ok t₂ => .ok t₂

/-- The whole decoder `fit_to_pandas`: run the frame loop from the initial
state, then normalize the two position columns. -/
def fit_to_pandas (frames : List Frame) : Except PyError Table :=
  match runFrames initState frames with
  | .error e => .error e
  | .ok st => normPipeline st.rows

/-- The table as assembled by the frame loop, before the unit normalizer
(the value of `df_activity` at source line 158). -/
def assembleTable (frames : List Frame) : Except PyError Table :=
  match runFrames initState frames with
  | .error e => .error e
  | .ok st => .ok { columns := concatColumns st.rows, rows := st.rows }

/-- The field lists of the data frames named `"record"`, in order. -/
def recordFieldLists (frames : List Frame) : List (List Field) :=
  frames.filterMap (fun fr =>
    match fr with
    | Frame.data name fields => if name = "record" then some fields else none
    | Frame.other => none)

/-- Modelled from the spec's words (testable property for C5): the union,
over all record frames, of the non-placeholder field names, ordered by
first occurrence. -/
def firstSeenCols (frames : List Frame) : List String :=
  (recordFieldLists frames).foldl
    (fun acc fields => fields.foldl
      (fun acc f => if nameHasUnknown f.name then acc else addCol acc f.name)
      acc) []

/-- The decoder with the diagnostic tally removed: no `check_list` /
`list_check` bookkeeping, the registry `good_list` is its own list, and
everything else is unchanged. One frame of it: -/
def stepNT (st : List String × List Row) : Frame → List String × List Row
  | Frame.other => st
  | Frame.data name fields =>
    if name = "record" then
      let p := fieldLoop fields st.1
      (p.1, st.2 ++ [p.2])
    else st

/-- The tally-free frame loop (never raises: nothing in it can fail). -/
def runNT (frames : List Frame) : List String × List Row :=
  frames.foldl stepNT ([], [])

/-- The tally-free decoder, used to settle whether the tally is observable. -/
def fit_to_pandas_noTally (frames : List Frame) : Except PyError Table :=
  normPipeline (runNT frames).2

/-- Success test for the decoder's result type. -/
def exOk : Except PyError Table → Bool
  | .ok _ => true
  | .error _ => false

/-! ### Dictionary lemmas -/

theorem rowLookup_dictInsert {α : Type} (r : List (String × α)) (k k' : String) (v : α) :
    rowLookup k' (dictInsert r k v) = if k' = k then some v else rowLookup k' r := by
  induction r with
  | nil =>
    by_cases h : k' = k
    · subst h; simp [dictInsert, rowLookup]
    · simp [dictInsert, rowLookup, h, Ne.symm h]
  | cons p r ih =>
    by_cases hpk : p.1 = k
    · subst hpk
      by_cases h : k' = p.1
      · subst h; simp [dictInsert, rowLookup]
      · simp [dictInsert, rowLookup, h, Ne.symm h]
    · by_cases hp' : p.1 = k'
      · have hk : ¬ k' = k := by rw [← hp']; exact hpk
        simp [dictInsert, rowLookup, hpk, hp', hk]
      · simp [dictInsert, rowLookup, hpk, hp', ih]

theorem keys_dictInsert {α : Type} (r : List (String × α)) (k : String) (v : α) :
    (dictInsert r k v).map Prod.fst =
      if k ∈ r.map Prod.fst then r.map Prod.fst else r.map Prod.fst ++ [k] := by
  induction r with
  | nil => simp [dictInsert]
  | cons p r ih =>
    by_cases hpk : p.1 = k
    · simp [dictInsert, hpk]
    · simp only [dictInsert, hpk, if_false, List.map_cons, ih, List.mem_cons]
      by_cases hk : k ∈ r.map Prod.fst
      · simp [hk]
      · simp [hk, Ne.symm hpk]

theorem mem_dictInsert {α : Type} (r : List (String × α)) (k : String) (v : α)
    (q : String × α) (hq : q ∈ dictInsert r k v) : q ∈ r ∨ q = (k, v) := by
  induction r with
  | nil => simp [dictInsert] at hq; simp [hq]
  | cons p r ih =>
    by_cases hpk : p.1 = k
    · simp only [dictInsert, hpk, if_true] at hq
      rcases List.mem_cons.1 hq with h | h
      · exact Or.inr h
      · exact Or.inl (List.mem_cons_of_mem _ h)
    · simp only [dictInsert, hpk, if_false] at hq
      rcases List.mem_cons.1 hq with h | h
      · exact Or.inl (h ▸ List.mem_cons_self _ _)
      · rcases ih h with h' | h'
        · exact Or.inl (List.mem_cons_of_mem _ h')
        · exact Or.inr h'

theorem rowLookup_eq_none {α : Type} (r : List (String × α)) (k : String)
    (h : ∀ q ∈ r, q.1 ≠ k) : rowLookup k r = none := by
  induction r with
  | nil => rfl
  | cons p r ih =>
    have hp : p.1 ≠ k := h p (List.mem_cons_self _ _)
    simp only [rowLookup, hp, if_false]
    exact ih (fun q hq => h q (List.mem_cons_of_mem _ hq))

/-! ### Field-loop lemmas -/

theorem fieldLoop_snd_aux (fields fs : List Field) (sh sh' : List String) (r : Row) :
    (fs.foldl (fieldStep fields) (sh, r)).2 = (fs.foldl (fieldStep fields) (sh', r)).2 := by
  induction fs generalizing sh sh' r with
  | nil => rfl
  | cons f fs ih =>
    by_cases h : nameHasUnknown f.name
    · simpa [fieldStep, h] using ih sh sh' r
    · simpa [fieldStep, h] using
        ih _ _ (dictInsert r f.name (get_value fields f.name))

theorem fieldLoop_snd (fields : List Field) (sh : List String) :
    (fieldLoop fields sh).2 = recordRow fields :=
  fieldLoop_snd_aux fields fields sh [] []

/-! ### Frame-loop lemmas -/

theorem tallyStep_rows (st st₁ : LoopState) (name : String)
    (h : tallyStep st name = .ok st₁) : st₁.rows = st.rows := by
  unfold tallyStep at h
  split at h
  · cases h; rfl
  · split at h
    · cases h; rfl
    · cases h

theorem step_rows_data (st st' : LoopState) (name : String) (fields : List Field)
    (h : step st (Frame.data name fields) = .ok st') :
    st'.rows = if name = "record" then st.rows ++ [recordRow fields] else st.rows := by
  simp only [step] at h
  cases htal : tallyStep st name with
  | error e => rw [htal] at h; cases h
  | ok st₁ =>
    rw [htal] at h
    have h₁ := tallyStep_rows st st₁ name htal
    by_cases hrec : name = "record"
    · simp only [hrec, if_true] at h ⊢
      cases h
      simp [h₁, fieldLoop_snd]
    · simp only [hrec, if_false] at h ⊢
      cases h
      exact h₁

theorem runFrames_rows (frames : List Frame) :
    ∀ (st st' : LoopState), runFrames st frames = .ok st' →
      st'.rows = st.rows ++ (recordFieldLists frames).map recordRow := by
  induction frames with
  | nil =>
    intro st st' h
    cases h
    simp [recordFieldLists]
  | cons fr frs ih =>
    intro st st' h
    unfold runFrames at h
    cases hst : step st fr with
    | error e => rw [hst] at h; cases h
    | ok st₁ =>
      rw [hst] at h
      have hrec := ih st₁ st' h
      cases fr with
      | other =>
        cases hst
        simpa [recordFieldLists] using hrec
      | data name fields =>
        have h₁ := step_rows_data st st₁ name fields hst
        by_cases hname : name = "record"
        · subst hname
          simp only [if_true] at h₁
          rw [hrec, h₁]
          simp [recordFieldLists]
        · simp only [hname, if_false] at h₁
          rw [hrec, h₁]
          simp [recordFieldLists, hname]

/-! ### `Forall₂` helpers -/

theorem forall2_comp {α β γ : Type} {R : α → β → Prop} {S : β → γ → Prop} :
    ∀ {l : List α} {m : List β} {n : List γ}, List.Forall₂ R l m → List.Forall₂ S m n →
      List.Forall₂ (fun a c => ∃ b, R a b ∧ S b c) l n := by
  intro l m n h₁
  induction h₁ generalizing n with
  | nil => intro h₂; cases h₂; exact List.Forall₂.nil
  | cons hR _ ih =>
    intro h₂
    cases h₂ with
    | cons hS htl => exact List.Forall₂.cons ⟨_, hR, hS⟩ (ih htl)

theorem forall2_get? {α β : Type} {R : α → β → Prop} :
    ∀ {l : List α} {m : List β}, List.Forall₂ R l m →
      ∀ (i : ℕ) (a : α) (b : β), l.get? i = some a → m.get? i = some b → R a b := by
  intro l m h
  induction h with
  | nil => intro i a b ha; cases ha
  | cons hR _ ih =>
    intro i a b ha hb
    cases i with
    | zero =>
      simp only [List.get?] at ha hb
      cases ha; cases hb
      exact hR
    | succ i => exact ih i a b ha hb

theorem forall2_map_left {α β γ : Type} {R : β → γ → Prop} (f : α → β) :
    ∀ {l : List α} {m : List γ}, List.Forall₂ R (l.map f) m →
      List.Forall₂ (fun a c => R (f a) c) l m := by
  intro l
  induction l with
  | nil => intro m h; cases h; exact List.Forall₂.nil
  | cons a l ih =>
    intro m h
    rw [List.map_cons] at h
    cases h with
    | cons hR htl => exact List.Forall₂.cons hR (ih htl)

/-! ### Normalization lemmas -/

theorem exMap_forall2 {α β : Type} (g : α → Except PyError β) :
    ∀ (l : List α) (l' : List β), exMap g l = .ok l' →
      List.Forall₂ (fun a b => g a = .ok b) l l' := by
  intro l
  induction l with
  | nil => intro l' h; cases h; exact List.Forall₂.nil
  | cons a l ih =>
    intro l' h
    unfold exMap at h
    cases hg : g a with
    | error e => rw [hg] at h; cases h
    | ok b =>
      rw [hg] at h
      cases hm : exMap g l with
      | error e => rw [hm] at h; cases h
      | ok l₀ =>
        rw [hm] at h
        cases h
        exact List.Forall₂.cons hg (ih l₀ hm)

/-- Relation between a row before and after normalizing column `c`. -/
def NormRel (c : String) (r r' : Row) : Prop :=
  ∃ v, normValue (cellD r c) = .ok v ∧ r' = dictInsert r c v

theorem normalizeColumn_ok (t t' : Table) (c : String)
    (h : normalizeColumn t c = .ok t') :
    t'.columns = t.columns ∧ List.Forall₂ (NormRel c) t.rows t'.rows := by
  unfold normalizeColumn at h
  split at h
  · cases hm : exMap (fun r =>
        match normValue (cellD r c) with
        | .error e => .error e
        | .ok v => .ok (dictInsert r c v)) t.rows with
    | error e => rw [hm] at h; cases h
    | ok rows =>
      rw [hm] at h
      cases h
      refine ⟨rfl, ?_⟩
      have h₂ := exMap_forall2 _ t.rows rows hm
      refine h₂.imp ?_
      intro r r' hg
      cases hv : normValue (cellD r c) with
      | error e => rw [hv] at hg; cases hg
      | ok v =>
        rw [hv] at hg
        cases hg
        exact ⟨v, hv, rfl⟩
  · cases h

theorem normalizeColumn_absent (t : Table) (c : String) (h : c ∉ t.columns) :
    normalizeColumn t c = .error (PyError.keyError c) := by
  unfold normalizeColumn
  rw [if_neg h]

theorem cellD_dictInsert (r : Row) (k c : String) (v : Value) :
    cellD (dictInsert r k v) c = if c = k then v else cellD r c := by
  unfold cellD
  rw [rowLookup_dictInsert]
  by_cases h : c = k <;> simp [h]

/-- Relation between a row of the assembled table and the corresponding row
of the decoder's output: both position columns normalized, in order. -/
def NormRel2 (r₀ r : Row) : Prop :=
  ∃ r₁, NormRel "position_lat" r₀ r₁ ∧ NormRel "position_long" r₁ r

theorem normRel2_cells (r₀ r : Row) (h : NormRel2 r₀ r) :
    (∀ c, c ≠ "position_lat" → c ≠ "position_long" → cellD r c = cellD r₀ c) ∧
    (∀ v, normValue (cellD r₀ "position_lat") = .ok v → cellD r "position_lat" = v) ∧
    (∀ v, normValue (cellD r₀ "position_long") = .ok v → cellD r "position_long" = v) := by
  obtain ⟨r₁, ⟨v₁, hv₁, he₁⟩, ⟨v₂, hv₂, he₂⟩⟩ := h
  subst he₁
  subst he₂
  have hll : ("position_lat" : String) ≠ "position_long" := by decide
  refine ⟨?_, ?_, ?_⟩
  · intro c hc₁ hc₂
    rw [cellD_dictInsert, if_neg hc₂, cellD_dictInsert, if_neg hc₁]
  · intro v hv
    rw [cellD_dictInsert, if_neg hll, cellD_dictInsert, if_pos rfl]
    rw [hv] at hv₁
    exact (Except.ok.injEq _ _ ▸ hv₁).symm
  · intro v hv
    rw [cellD_dictInsert, if_pos rfl]
    rw [cellD_dictInsert, if_neg (Ne.symm hll)] at hv₂
    rw [hv] at hv₂
    exact (Except.ok.injEq _ _ ▸ hv₂).symm

/-- Characterization of a successful decode: the loop succeeded, its rows
are the record frames' row dicts in order, the columns are the pandas
column union of those rows, and each output row is the corresponding
assembled row with the two position columns normalized. -/
theorem fit_ok_char (frames : List Frame) (t : Table)
    (h : fit_to_pandas frames = .ok t) :
    ∃ st, runFrames initState frames = .ok st ∧
      st.rows = (recordFieldLists frames).map recordRow ∧
      t.columns = concatColumns st.rows ∧
      List.Forall₂ NormRel2 st.rows t.rows := by
  unfold fit_to_pandas at h
  cases hrun : runFrames initState frames with
  | error e =>
    rw [hrun] at h
    have h' : (Except.error e : Except PyError Table) = .ok t := h
    exact Except.noConfusion h'
  | ok st =>
    rw [hrun] at h
    have hp : normPipeline st.rows = .ok t := h
    unfold normPipeline at hp
    cases h₁ : normalizeColumn { columns := concatColumns st.rows, rows := st.rows }
        "position_lat" with
    | error e =>
      rw [h₁] at hp
      have h' : (Except.error e : Except PyError Table) = .ok t := hp
      exact Except.noConfusion h'
    | ok t₁ =>
      rw [h₁] at hp
      have hp₁ : (match normalizeColumn t₁ "position_long" with
        | Except.error e => (Except.error e : Except PyError Table)
        | Except.ok t₂ => Except.ok t₂) = .ok t := hp
      cases h₂ : normalizeColumn t₁ "position_long" with
      | error e =>
        rw [h₂] at hp₁
        have h' : (Except.error e : Except PyError Table) = .ok t := hp₁
        exact Except.noConfusion h'
      | ok t₂ =>
        rw [h₂] at hp₁
        have h' : (Except.ok t₂ : Except PyError Table) = .ok t := hp₁
        cases h'
        obtain ⟨hc₁, hf₁⟩ := normalizeColumn_ok _ _ _ h₁
        obtain ⟨hc₂, hf₂⟩ := normalizeColumn_ok _ _ _ h₂
        refine ⟨st, rfl, ?_, ?_, ?_⟩
        · simpa using runFrames_rows frames initState st hrun
        · rw [hc₂, hc₁]
        · exact forall2_comp hf₁ hf₂

/-! ### Tally invariant: without record frames the tally cannot raise -/

/-- Every name in the shared list has a count in `list_check`. This holds
as long as no record frame has registered a field name into the shared
list, and it makes the tally update total. -/
def tallyInv (st : LoopState) : Prop :=
  ∀ n, n ∈ st.check_list → (rowLookup n st.list_check).isSome = true

theorem tallyStep_total (st : LoopState) (name : String) (hinv : tallyInv st) :
    ∃ st₁, tallyStep st name = .ok st₁ ∧ tallyInv st₁ ∧ st₁.rows = st.rows := by
  unfold tallyStep
  by_cases hmem : name ∈ st.check_list
  · cases hlook : rowLookup name st.list_check with
    | none =>
      have hs := hinv name hmem
      rw [hlook] at hs
      simp at hs
    | some c =>
      rw [if_neg (not_not_intro hmem)]
      refine ⟨_, rfl, ?_, rfl⟩
      intro n hn
      rw [rowLookup_dictInsert]
      by_cases hnn : n = name
      · simp [hnn]
      · simpa [hnn] using hinv n hn
  · rw [if_pos hmem]
    refine ⟨_, rfl, ?_, rfl⟩
    intro n hn
    simp only [List.mem_append, List.mem_singleton] at hn
    rw [rowLookup_dictInsert]
    by_cases hnn : n = name
    · simp [hnn]
    · rcases hn with hn | hn
      · simpa [hnn] using hinv n hn
      · exact absurd hn hnn

theorem runFrames_total_no_record (frames : List Frame) :
    ∀ st, tallyInv st → recordFieldLists frames = [] →
      ∃ st', runFrames st frames = .ok st' ∧ st'.rows = st.rows := by
  induction frames with
  | nil => intro st _ _; exact ⟨st, rfl, rfl⟩
  | cons fr frs ih =>
    intro st hinv h
    cases fr with
    | other =>
      simp only [recordFieldLists, List.filterMap_cons] at h
      obtain ⟨st', hst', hrows⟩ := ih st hinv h
      exact ⟨st', hst', hrows⟩
    | data name fields =>
      by_cases hname : name = "record"
      · subst hname
        simp [recordFieldLists, List.filterMap_cons] at h
      · simp only [recordFieldLists, List.filterMap_cons, hname, if_false] at h
        obtain ⟨st₁, htal, hinv₁, hrows₁⟩ := tallyStep_total st name hinv
        obtain ⟨st', hst', hrows⟩ := ih st₁ hinv₁ h
        refine ⟨st', ?_, hrows.trans hrows₁⟩
        show runFrames st (Frame.data name fields :: frs) = .ok st'
        unfold runFrames
        simp only [step, htal, hname, if_false]
        exact hst'

/-! ### The tally-free loop -/

theorem runNT_aux (frames : List Frame) :
    ∀ (gl : List String) (rows : List Row),
      (frames.foldl stepNT (gl, rows)).2 = rows ++ (recordFieldLists frames).map recordRow := by
  induction frames with
  | nil => intro gl rows; simp [recordFieldLists]
  | cons fr frs ih =>
    intro gl rows
    cases fr with
    | other =>
      simp only [List.foldl_cons, stepNT]
      simp [ih, recordFieldLists, List.filterMap_cons]
    | data name fields =>
      by_cases hname : name = "record"
      · subst hname
        simp only [List.foldl_cons, stepNT, if_true]
        rw [ih]
        simp [recordFieldLists, List.filterMap_cons, fieldLoop_snd]
      · simp only [List.foldl_cons, stepNT, hname, if_false]
        rw [ih]
        simp [recordFieldLists, List.filterMap_cons, hname]

theorem runNT_rows (frames : List Frame) :
    (runNT frames).2 = (recordFieldLists frames).map recordRow := by
  simpa using runNT_aux frames [] []

/-! ### Column-set lemmas -/

theorem mem_addCol (acc : List String) (a k : String) (h : k ∈ acc) : k ∈ addCol acc a := by
  unfold addCol
  split
  · exact h
  · exact List.mem_append_left _ h

theorem self_mem_addCol (acc : List String) (a : String) : a ∈ addCol acc a := by
  unfold addCol
  split
  · assumption
  · exact List.mem_append_right _ (List.mem_singleton_self a)

theorem addCol_of_mem (acc : List String) (a : String) (h : a ∈ acc) : addCol acc a = acc :=
  if_pos h

theorem mem_foldl_addCol (l : List String) :
    ∀ (acc : List String) (k : String), k ∈ acc ∨ k ∈ l → k ∈ l.foldl addCol acc := by
  induction l with
  | nil =>
    intro acc k h
    rcases h with h | h
    · exact h
    · cases h
  | cons a l ih =>
    intro acc k h
    rw [List.foldl_cons]
    rcases h with h | h
    · exact ih _ k (Or.inl (mem_addCol acc a k h))
    · rcases List.mem_cons.1 h with h | h
      · exact ih _ k (Or.inl (h ▸ self_mem_addCol acc a))
      · exact ih _ k (Or.inr h)

theorem mem_foldl_addCol_inv (l : List String) :
    ∀ (acc : List String) (k : String), k ∈ l.foldl addCol acc → k ∈ acc ∨ k ∈ l := by
  induction l with
  | nil => intro acc k h; exact Or.inl h
  | cons a l ih =>
    intro acc k h
    rw [List.foldl_cons] at h
    rcases ih _ k h with h' | h'
    · unfold addCol at h'
      split at h'
      · exact Or.inl h'
      · rcases List.mem_append.1 h' with h'' | h''
        · exact Or.inl h''
        · exact Or.inr (List.mem_cons.2 (Or.inl (List.mem_singleton.1 h'')))
    · exact Or.inr (List.mem_cons_of_mem a h')

theorem foldl_addCol_dictInsert (r : Row) (k : String) (v : Value) (acc : List String) :
    (rowKeys (dictInsert r k v)).foldl addCol acc =
      addCol ((rowKeys r).foldl addCol acc) k := by
  unfold rowKeys
  rw [keys_dictInsert]
  by_cases h : k ∈ r.map Prod.fst
  · rw [if_pos h]
    rw [addCol_of_mem _ _ (mem_foldl_addCol _ _ _ (Or.inr h))]
  · rw [if_neg h, List.foldl_append]
    rfl

theorem fieldLoop_cols_aux (fields' : List Field) :
    ∀ (fs : List Field) (sh : List String) (r : Row) (acc : List String),
      (rowKeys ((fs.foldl (fieldStep fields') (sh, r)).2)).foldl addCol acc =
        fs.foldl (fun a f => if nameHasUnknown f.name then a else addCol a f.name)
          ((rowKeys r).foldl addCol acc) := by
  intro fs
  induction fs with
  | nil => intro sh r acc; rfl
  | cons f fs ih =>
    intro sh r acc
    by_cases h : nameHasUnknown f.name
    · simp only [List.foldl_cons, fieldStep, h, if_true]
      exact ih sh r acc
    · simp only [List.foldl_cons, fieldStep, h, if_false, Bool.false_eq_true]
      rw [ih _ _ acc, foldl_addCol_dictInsert]

theorem recordRow_cols (fields : List Field) (acc : List String) :
    (rowKeys (recordRow fields)).foldl addCol acc =
      fields.foldl (fun a f => if nameHasUnknown f.name then a else addCol a f.name) acc := by
  unfold recordRow fieldLoop
  exact fieldLoop_cols_aux fields fields [] [] acc

theorem concatColumns_recordRows (frames : List Frame) :
    concatColumns ((recordFieldLists frames).map recordRow) = firstSeenCols frames := by
  unfold concatColumns firstSeenCols
  rw [List.foldl_map]
  generalize ([] : List String) = acc
  induction recordFieldLists frames generalizing acc with
  | nil => rfl
  | cons fields recs ih =>
    rw [List.foldl_cons, List.foldl_cons, recordRow_cols, ih]

/-! ### Row-content lemmas -/

theorem fieldLoop_row_unknown_free (fields' : List Field) :
    ∀ (fs : List Field) (sh : List String) (r : Row),
      (∀ q ∈ r, nameHasUnknown q.1 = false) →
      ∀ q ∈ (fs.foldl (fieldStep fields') (sh, r)).2, nameHasUnknown q.1 = false := by
  intro fs
  induction fs with
  | nil => intro sh r hr q hq; exact hr q hq
  | cons f fs ih =>
    intro sh r hr
    by_cases h : nameHasUnknown f.name
    · simp only [List.foldl_cons, fieldStep, h, if_true]
      exact ih sh r hr
    · simp only [List.foldl_cons, fieldStep, h, if_false, Bool.false_eq_true]
      refine ih _ _ ?_
      intro q hq
      rcases mem_dictInsert _ _ _ q hq with hq' | hq'
      · exact hr q hq'
      · rw [hq']
        exact Bool.not_eq_true _ ▸ (by simpa using h)

theorem recordRow_unknown_free (fields : List Field) :
    ∀ q ∈ recordRow fields, nameHasUnknown q.1 = false := by
  unfold recordRow fieldLoop
  exact fieldLoop_row_unknown_free fields fields [] []
    (fun q hq => absurd hq (List.not_mem_nil q))

theorem fieldLoop_row_lookup_none (fields' : List Field) (c : String) :
    ∀ (fs : List Field) (sh : List String) (r : Row),
      (∀ f ∈ fs, f.name ≠ c) → rowLookup c r = none →
      rowLookup c ((fs.foldl (fieldStep fields') (sh, r)).2) = none := by
  intro fs
  induction fs with
  | nil => intro sh r _ hr; exact hr
  | cons f fs ih =>
    intro sh r hfs hr
    have hf : f.name ≠ c := hfs f (List.mem_cons_self _ _)
    have hfs' : ∀ g ∈ fs, g.name ≠ c := fun g hg => hfs g (List.mem_cons_of_mem _ hg)
    by_cases h : nameHasUnknown f.name
    · simp only [List.foldl_cons, fieldStep, h, if_true]
      exact ih sh r hfs' hr
    · simp only [List.foldl_cons, fieldStep, h, if_false, Bool.false_eq_true]
      refine ih _ _ hfs' ?_
      rw [rowLookup_dictInsert, if_neg (fun hc => hf hc.symm), hr]

theorem recordRow_lookup_none (fields : List Field) (c : String)
    (h : ∀ f ∈ fields, f.name ≠ c) : rowLookup c (recordRow fields) = none := by
  unfold recordRow fieldLoop
  exact fieldLoop_row_lookup_none fields c fields [] [] h rfl

theorem mem_foldl_rows_inv (rows : List Row) :
    ∀ (acc : List String) (c : String),
      c ∈ rows.foldl (fun acc r => (rowKeys r).foldl addCol acc) acc →
      c ∈ acc ∨ ∃ r ∈ rows, c ∈ rowKeys r := by
  induction rows with
  | nil => intro acc c h; exact Or.inl h
  | cons r rows ih =>
    intro acc c h
    rw [List.foldl_cons] at h
    rcases ih _ c h with h' | h'
    · rcases mem_foldl_addCol_inv _ _ _ h' with h'' | h''
      · exact Or.inl h''
      · exact Or.inr ⟨r, List.mem_cons_self _ _, h''⟩
    · obtain ⟨r', hr', hc'⟩ := h'
      exact Or.inr ⟨r', List.mem_cons_of_mem _ hr', hc'⟩

theorem mem_concatColumns (rows : List Row) (c : String) (h : c ∈ concatColumns rows) :
    ∃ r ∈ rows, c ∈ rowKeys r := by
  unfold concatColumns at h
  rcases mem_foldl_rows_inv rows [] c h with h' | h'
  · cases h'
  · exact h'

theorem forall2_mem_right {α β : Type} {R : α → β → Prop} :
    ∀ {l : List α} {m : List β}, List.Forall₂ R l m → ∀ b ∈ m, ∃ a ∈ l, R a b := by
  intro l m h
  induction h with
  | nil => intro b hb; cases hb
  | cons hR htl ih =>
    intro b hb
    rcases List.mem_cons.1 hb with hb | hb
    · exact ⟨_, List.mem_cons_self _ _, hb ▸ hR⟩
    · obtain ⟨a, ha, hab⟩ := ih b hb
      exact ⟨a, List.mem_cons_of_mem _ ha, hab⟩

/-- Both `assembleTable` and `fit_to_pandas` run the same frame loop, so on a
doubly successful input the row at index `j` of the output is the row at
index `j` of the assembled table with both position columns normalized. -/
theorem fit_assemble_cells (frames : List Frame) (t₀ t : Table)
    (h₀ : assembleTable frames = .ok t₀) (h : fit_to_pandas frames = .ok t) :
    ∀ (j : ℕ) (r₀ r : Row), t₀.rows.get? j = some r₀ → t.rows.get? j = some r →
      NormRel2 r₀ r := by
  obtain ⟨st, hrun, hrows, hcols, hf⟩ := fit_ok_char frames t h
  unfold assembleTable at h₀
  rw [hrun] at h₀
  have h₀' : (Except.ok { columns := concatColumns st.rows, rows := st.rows } :
    Except PyError Table) = .ok t₀ := h₀
  have ht₀ : t₀ = { columns := concatColumns st.rows, rows := st.rows } := by
    cases h₀'; rfl
  intro j r₀ r hj hr
  apply forall2_get? hf j r₀ r _ hr
  rw [ht₀] at hj
  exact hj

/-! ### Claim theorems -/

/-- Claim C10: because `check_list` and `good_list` alias one list object,
a record frame carrying a non-placeholder field named `"foo"` followed by a
data frame named `"foo"` makes the tally update read `list_check.get("foo")`
as `None` and raise `TypeError` on `None + 1`: the decode errors instead of
returning a Table. -/
theorem c10_alias_tally_crash :
    fit_to_pandas
      [Frame.data "record" [⟨"foo", Value.int 1⟩], Frame.data "foo" []] =
      .error PyError.typeError := by
  rfl

/-- Claim C1 (amended): for an input with zero record frames the assembled
table is empty (zero rows, zero columns), but the decode then raises
`KeyError` on the absent `position_lat` column in the unit normalizer
instead of returning that empty Table. -/
theorem c1_zero_records_raises (frames : List Frame)
    (h : recordFieldLists frames = []) :
    assembleTable frames = .ok { columns := [], rows := [] } ∧
    fit_to_pandas frames = .error (PyError.keyError "position_lat") := by
  obtain ⟨st', hrun, hrows⟩ := runFrames_total_no_record frames initState
    (fun n hn => absurd hn (List.not_mem_nil n)) h
  have hrows' : st'.rows = [] := hrows
  constructor
  · unfold assembleTable
    rw [hrun]
    show (Except.ok { columns := concatColumns st'.rows, rows := st'.rows } :
      Except PyError Table) = .ok { columns := [], rows := [] }
    rw [hrows']
    rfl
  · unfold fit_to_pandas
    rw [hrun]
    show normPipeline st'.rows = .error (PyError.keyError "position_lat")
    rw [hrows']
    rfl

/-- Witness for C1's amended theorem at the concrete input
`[session frame]`, which has zero record frames. -/
theorem c1_zero_records_witness :
    assembleTable [Frame.data "session" []] = .ok { columns := [], rows := [] } ∧
    fit_to_pandas [Frame.data "session" []] =
      .error (PyError.keyError "position_lat") :=
  c1_zero_records_raises [Frame.data "session" []] (by rfl)

/-- Counterexample to claim C1 as stated: on a valid input with zero record
frames the decode raises `KeyError` (so it neither returns an empty Table
nor avoids errors). -/
theorem c1_counterexample :
    fit_to_pandas [Frame.data "session" []] =
      .error (PyError.keyError "position_lat") := by
  rfl

/-- Claim C2: if a record frame exists but `position_lat` (or
`position_long`) is entirely absent from the assembled table's columns, the
unit normalizer fails and the whole decode returns no Table. -/
theorem c2_missing_position_column_fails (frames : List Frame) (t₀ : Table)
    (h₀ : assembleTable frames = .ok t₀) (hne : t₀.rows ≠ [])
    (habs : "position_lat" ∉ t₀.columns ∨ "position_long" ∉ t₀.columns) :
    exOk (fit_to_pandas frames) = false := by
  unfold assembleTable at h₀
  cases hrun : runFrames initState frames with
  | error e =>
    rw [hrun] at h₀
    exact Except.noConfusion
      (show (Except.error e : Except PyError Table) = .ok t₀ from h₀)
  | ok st =>
    rw [hrun] at h₀
    have h₀' : (Except.ok { columns := concatColumns st.rows, rows := st.rows } :
      Except PyError Table) = .ok t₀ := h₀
    have ht₀ : t₀ = { columns := concatColumns st.rows, rows := st.rows } := by
      cases h₀'; rfl
    unfold fit_to_pandas
    rw [hrun]
    show exOk (normPipeline st.rows) = false
    unfold normPipeline
    rcases habs with habs | habs
    · rw [normalizeColumn_absent _ _ (by rw [ht₀] at habs; exact habs)]
      rfl
    · cases h₁ : normalizeColumn { columns := concatColumns st.rows, rows := st.rows }
          "position_lat" with
      | error e => rfl
      | ok t₁ =>
        obtain ⟨hc₁, _⟩ := normalizeColumn_ok _ _ _ h₁
        have habs' : "position_long" ∉ t₁.columns := by
          rw [hc₁]
          rw [ht₀] at habs
          exact habs
        show exOk (match normalizeColumn t₁ "position_long" with
          | Except.error e => (Except.error e : Except PyError Table)
          | Except.ok t₂ => Except.ok t₂) = false
        rw [normalizeColumn_absent _ _ habs']
        rfl

/-- Witness for C2 at a concrete input with one record frame carrying only
`heart_rate`: the assembled table lacks `position_lat` and the decode
fails. -/
theorem c2_witness :
    exOk (fit_to_pandas [Frame.data "record" [⟨"heart_rate", Value.int 142⟩]]) = false :=
  c2_missing_position_column_fails
    [Frame.data "record" [⟨"heart_rate", Value.int 142⟩]]
    { columns := ["heart_rate"], rows := [[("heart_rate", Value.int 142)]] }
    (by rfl) (by decide) (Or.inl (by decide))

/-- Counterexample to claim C8 as stated: on this input (a record frame
with field `"foo"` and both position fields, then a data frame named
`"foo"`) the decoder with the tally raises `TypeError` while the same
decoder with the tally removed returns a Table — so maintaining the tally
does affect whether the decode succeeds. -/
theorem c8_counterexample :
    fit_to_pandas
      [Frame.data "record" [⟨"foo", Value.int 1⟩, ⟨"position_lat", Value.int 0⟩,
        ⟨"position_long", Value.int 0⟩], Frame.data "foo" []] =
      .error PyError.typeError ∧
    fit_to_pandas_noTally
      [Frame.data "record" [⟨"foo", Value.int 1⟩, ⟨"position_lat", Value.int 0⟩,
        ⟨"position_long", Value.int 0⟩], Frame.data "foo" []] =
      .ok { columns := ["foo", "position_lat", "position_long"],
            rows := [[("foo", Value.int 1),
                      ("position_lat", Value.rat (scaleQ ((0 : ℤ) : ℚ))),
                      ("position_long", Value.rat (scaleQ ((0 : ℤ) : ℚ)))]] } :=
  ⟨by rfl, by rfl⟩

/-- Claim C8 (amended): whenever the decode succeeds, the diagnostic tally
had no effect — the tally-free decoder returns the very same Table. (By
`c8_counterexample` the converse direction fails: the tally can turn a
success into a raised `TypeError` through the `check_list`/`good_list`
aliasing.) -/
theorem c8_tally_unobservable_on_success (frames : List Frame) (t : Table)
    (h : fit_to_pandas frames = .ok t) :
    fit_to_pandas_noTally frames = .ok t := by
  unfold fit_to_pandas at h
  cases hrun : runFrames initState frames with
  | error e =>
    rw [hrun] at h
    exact Except.noConfusion
      (show (Except.error e : Except PyError Table) = .ok t from h)
  | ok st =>
    rw [hrun] at h
    have hp : normPipeline st.rows = .ok t := h
    unfold fit_to_pandas_noTally
    rw [runNT_rows]
    have hrows : st.rows = (recordFieldLists frames).map recordRow := by
      simpa using runFrames_rows frames initState st hrun
    rw [← hrows]
    exact hp

/-- Claim C3: on every successful decode the output has exactly one row
per data frame named `"record"`, in the same relative order (row `j` is
the row dict of the `j`-th record frame, up to the position-column
rescaling), and non-record frames contribute no row. -/
theorem c3_rows_match_record_frames (frames : List Frame) (t : Table)
    (h : fit_to_pandas frames = .ok t) :
    t.rows.length = (recordFieldLists frames).length ∧
    List.Forall₂ (fun fields row => ∀ c, c ≠ "position_lat" → c ≠ "position_long" →
      cellD row c = cellD (recordRow fields) c) (recordFieldLists frames) t.rows := by
  obtain ⟨st, _, hrows, _, hf⟩ := fit_ok_char frames t h
  rw [hrows] at hf
  have hf' := forall2_map_left recordRow hf
  constructor
  · rw [← hf.length_eq, List.length_map]
  · refine hf'.imp ?_
    intro fields row hrel c hc₁ hc₂
    exact (normRel2_cells _ _ hrel).1 c hc₁ hc₂

/-- Witness for C3 at a one-record, one-event input: one output row. -/
theorem c3_witness :
    (Table.rows
      { columns := ["heart_rate", "position_lat", "position_long"],
        rows := [[("heart_rate", Value.int 142),
                  ("position_lat", Value.rat (scaleQ ((0 : ℤ) : ℚ))),
                  ("position_long", Value.rat (scaleQ ((0 : ℤ) : ℚ)))]] }).length =
    (recordFieldLists
      [Frame.data "record" [⟨"heart_rate", Value.int 142⟩,
        ⟨"position_lat", Value.int 0⟩, ⟨"position_long", Value.int 0⟩],
       Frame.data "event" []]).length :=
  (c3_rows_match_record_frames
    [Frame.data "record" [⟨"heart_rate", Value.int 142⟩,
      ⟨"position_lat", Value.int 0⟩, ⟨"position_long", Value.int 0⟩],
     Frame.data "event" []]
    { columns := ["heart_rate", "position_lat", "position_long"],
      rows := [[("heart_rate", Value.int 142),
                ("position_lat", Value.rat (scaleQ ((0 : ℤ) : ℚ))),
                ("position_long", Value.rat (scaleQ ((0 : ℤ) : ℚ)))]] }
    (by rfl)).1

/-- Claim C4: on every successful decode, no column label of the output
contains the substring `"unknown"`, and no row binds any key containing
that substring — placeholder fields are dropped everywhere. -/
theorem c4_unknown_fields_excluded (frames : List Frame) (t : Table)
    (h : fit_to_pandas frames = .ok t) :
    (∀ c ∈ t.columns, nameHasUnknown c = false) ∧
    (∀ r ∈ t.rows, ∀ q ∈ r, nameHasUnknown q.1 = false) := by
  obtain ⟨st, _, hrows, hcols, hf⟩ := fit_ok_char frames t h
  have hrowfree : ∀ r ∈ st.rows, ∀ q ∈ r, nameHasUnknown q.1 = false := by
    intro r hr
    rw [hrows] at hr
    obtain ⟨fields, _, hfr⟩ := List.mem_map.1 hr
    rw [← hfr]
    exact recordRow_unknown_free fields
  constructor
  · intro c hc
    rw [hcols] at hc
    obtain ⟨r, hr, hck⟩ := mem_concatColumns st.rows c hc
    obtain ⟨q, hq, hq1⟩ := List.mem_map.1 hck
    rw [← hq1]
    exact hrowfree r hr q hq
  · intro r hr q hq
    obtain ⟨r₀, hr₀, ⟨r₁, ⟨v, _, he₁⟩, ⟨w, _, he₂⟩⟩⟩ := forall2_mem_right hf r hr
    rw [he₂] at hq
    rcases mem_dictInsert _ _ _ q hq with hq' | hq'
    · rw [he₁] at hq'
      rcases mem_dictInsert _ _ _ q hq' with hq'' | hq''
      · exact hrowfree r₀ hr₀ q hq''
      · rw [hq'']
        show nameHasUnknown "position_lat" = false
        decide
    · rw [hq']
      show nameHasUnknown "position_long" = false
      decide

/-- Witness for C4 at an input whose record frame carries an `unknown_87`
placeholder field: the first output column is not placeholder-marked. -/
theorem c4_witness :
    nameHasUnknown "heart_rate" = false :=
  (c4_unknown_fields_excluded
    [Frame.data "record" [⟨"unknown_87", Value.int 5⟩, ⟨"heart_rate", Value.int 142⟩,
      ⟨"position_lat", Value.int 0⟩, ⟨"position_long", Value.int 0⟩]]
    { columns := ["heart_rate", "position_lat", "position_long"],
      rows := [[("heart_rate", Value.int 142),
                ("position_lat", Value.rat (scaleQ ((0 : ℤ) : ℚ))),
                ("position_long", Value.rat (scaleQ ((0 : ℤ) : ℚ)))]] }
    (by rfl)).1 "heart_rate" (by decide)

/-- Claim C5: on every successful decode the output's column list equals
the union, over all record frames, of the non-placeholder field names, in
first-seen order. -/
theorem c5_columns_first_seen (frames : List Frame) (t : Table)
    (h : fit_to_pandas frames = .ok t) :
    t.columns = firstSeenCols frames := by
  obtain ⟨st, _, hrows, hcols, _⟩ := fit_ok_char frames t h
  rw [hcols, hrows, concatColumns_recordRows]

/-- Witness for C5 at an input with two record frames with overlapping
field sets (and an interleaved placeholder field). -/
theorem c5_witness :
    (Table.columns
      { columns := ["position_lat", "position_long", "heart_rate"],
        rows := [[("position_lat", Value.rat (scaleQ ((0 : ℤ) : ℚ))),
                  ("position_long", Value.rat (scaleQ ((0 : ℤ) : ℚ)))],
                 [("heart_rate", Value.int 99),
                  ("position_lat", Value.rat (scaleQ ((0 : ℤ) : ℚ))),
                  ("position_long", Value.rat (scaleQ ((0 : ℤ) : ℚ)))]] }) =
    firstSeenCols
      [Frame.data "record" [⟨"position_lat", Value.int 0⟩,
        ⟨"position_long", Value.int 0⟩],
       Frame.data "record" [⟨"unknown_3", Value.int 7⟩, ⟨"heart_rate", Value.int 99⟩,
        ⟨"position_lat", Value.int 0⟩, ⟨"position_long", Value.int 0⟩]] :=
  c5_columns_first_seen
    [Frame.data "record" [⟨"position_lat", Value.int 0⟩,
      ⟨"position_long", Value.int 0⟩],
     Frame.data "record" [⟨"unknown_3", Value.int 7⟩, ⟨"heart_rate", Value.int 99⟩,
      ⟨"position_lat", Value.int 0⟩, ⟨"position_long", Value.int 0⟩]]
    { columns := ["position_lat", "position_long", "heart_rate"],
      rows := [[("position_lat", Value.rat (scaleQ ((0 : ℤ) : ℚ))),
                ("position_long", Value.rat (scaleQ ((0 : ℤ) : ℚ)))],
               [("heart_rate", Value.int 99),
                ("position_lat", Value.rat (scaleQ ((0 : ℤ) : ℚ))),
                ("position_long", Value.rat (scaleQ ((0 : ℤ) : ℚ)))]] }
    (by rfl)

/-- Witness for C8's amended theorem at a concrete succeeding input. -/
theorem c8_witness :
    fit_to_pandas_noTally
      [Frame.data "record" [⟨"position_lat", Value.int 0⟩,
        ⟨"position_long", Value.int 0⟩]] =
      .ok { columns := ["position_lat", "position_long"],
            rows := [[("position_lat", Value.rat (scaleQ ((0 : ℤ) : ℚ))),
                      ("position_long", Value.rat (scaleQ ((0 : ℤ) : ℚ)))]] } :=
  c8_tally_unobservable_on_success
    [Frame.data "record" [⟨"position_lat", Value.int 0⟩,
      ⟨"position_long", Value.int 0⟩]]
    { columns := ["position_lat", "position_long"],
      rows := [[("position_lat", Value.rat (scaleQ ((0 : ℤ) : ℚ))),
                ("position_long", Value.rat (scaleQ ((0 : ℤ) : ℚ)))]] }
    (by rfl)

/-- Claim C6: the unit normalizer rescales every raw integer `v` in the
two position columns to `v / (2^32 / 360)` element-wise; in particular,
three record frames with `position_lat = 2147483648` and
`position_long = 0` plus one `event` frame decode to exactly three rows
with `position_lat` 180 and `position_long` 0 (floats modelled as exact
rationals). -/
theorem c6_semicircles_to_degrees :
    (∀ (frames : List Frame) (t₀ t : Table), assembleTable frames = .ok t₀ →
      fit_to_pandas frames = .ok t →
      ∀ (j : ℕ) (r₀ r : Row), t₀.rows.get? j = some r₀ → t.rows.get? j = some r →
      ∀ c, (c = "position_lat" ∨ c = "position_long") →
      ∀ n : ℤ, cellD r₀ c = Value.int n → cellD r c = Value.rat (scaleQ (n : ℚ))) ∧
    fit_to_pandas
      [Frame.data "record" [⟨"position_lat", Value.int 2147483648⟩,
        ⟨"position_long", Value.int 0⟩],
       Frame.data "record" [⟨"position_lat", Value.int 2147483648⟩,
        ⟨"position_long", Value.int 0⟩],
       Frame.data "record" [⟨"position_lat", Value.int 2147483648⟩,
        ⟨"position_long", Value.int 0⟩],
       Frame.data "event" []] =
      .ok { columns := ["position_lat", "position_long"],
            rows := [[("position_lat", Value.rat 180), ("position_long", Value.rat 0)],
                     [("position_lat", Value.rat 180), ("position_long", Value.rat 0)],
                     [("position_lat", Value.rat 180), ("position_long", Value.rat 0)]] } := by
  constructor
  · intro frames t₀ t h₀ h j r₀ r hj hr c hc n hcell
    have hrel := fit_assemble_cells frames t₀ t h₀ h j r₀ r hj hr
    obtain ⟨_, hlat, hlong⟩ := normRel2_cells _ _ hrel
    rcases hc with hc | hc
    · subst hc
      exact hlat _ (by rw [hcell]; rfl)
    · subst hc
      exact hlong _ (by rw [hcell]; rfl)
  · have h180 : scaleQ ((2147483648 : ℤ) : ℚ) = 180 := by unfold scaleQ; norm_num
    have h0 : scaleQ ((0 : ℤ) : ℚ) = 0 := by unfold scaleQ; norm_num
    have e : fit_to_pandas
        [Frame.data "record" [⟨"position_lat", Value.int 2147483648⟩,
          ⟨"position_long", Value.int 0⟩],
         Frame.data "record" [⟨"position_lat", Value.int 2147483648⟩,
          ⟨"position_long", Value.int 0⟩],
         Frame.data "record" [⟨"position_lat", Value.int 2147483648⟩,
          ⟨"position_long", Value.int 0⟩],
         Frame.data "event" []] =
        .ok { columns := ["position_lat", "position_long"],
              rows := [[("position_lat", Value.rat (scaleQ ((2147483648 : ℤ) : ℚ))),
                        ("position_long", Value.rat (scaleQ ((0 : ℤ) : ℚ)))],
                       [("position_lat", Value.rat (scaleQ ((2147483648 : ℤ) : ℚ))),
                        ("position_long", Value.rat (scaleQ ((0 : ℤ) : ℚ)))],
                       [("position_lat", Value.rat (scaleQ ((2147483648 : ℤ) : ℚ))),
                        ("position_long", Value.rat (scaleQ ((0 : ℤ) : ℚ)))]] } := by rfl
    rw [h180, h0] at e
    exact e

/-- Witness for C6's element-wise part: at the scenario input, row 0's
`position_lat` output cell is the once-rescaled raw value. -/
theorem c6_witness :
    cellD [("position_lat", Value.rat (scaleQ ((2147483648 : ℤ) : ℚ))),
           ("position_long", Value.rat (scaleQ ((0 : ℤ) : ℚ)))] "position_lat" =
      Value.rat (scaleQ ((2147483648 : ℤ) : ℚ)) :=
  c6_semicircles_to_degrees.1
    [Frame.data "record" [⟨"position_lat", Value.int 2147483648⟩,
      ⟨"position_long", Value.int 0⟩],
     Frame.data "record" [⟨"position_lat", Value.int 2147483648⟩,
      ⟨"position_long", Value.int 0⟩],
     Frame.data "record" [⟨"position_lat", Value.int 2147483648⟩,
      ⟨"position_long", Value.int 0⟩],
     Frame.data "event" []]
    { columns := ["position_lat", "position_long"],
      rows := [[("position_lat", Value.int 2147483648), ("position_long", Value.int 0)],
               [("position_lat", Value.int 2147483648), ("position_long", Value.int 0)],
               [("position_lat", Value.int 2147483648), ("position_long", Value.int 0)]] }
    { columns := ["position_lat", "position_long"],
      rows := [[("position_lat", Value.rat (scaleQ ((2147483648 : ℤ) : ℚ))),
                ("position_long", Value.rat (scaleQ ((0 : ℤ) : ℚ)))],
               [("position_lat", Value.rat (scaleQ ((2147483648 : ℤ) : ℚ))),
                ("position_long", Value.rat (scaleQ ((0 : ℤ) : ℚ)))],
               [("position_lat", Value.rat (scaleQ ((2147483648 : ℤ) : ℚ))),
                ("position_long", Value.rat (scaleQ ((0 : ℤ) : ℚ)))]] }
    (by rfl) (by rfl) 0
    [("position_lat", Value.int 2147483648), ("position_long", Value.int 0)]
    [("position_lat", Value.rat (scaleQ ((2147483648 : ℤ) : ℚ))),
     ("position_long", Value.rat (scaleQ ((0 : ℤ) : ℚ)))]
    (by rfl) (by rfl) "position_lat" (Or.inl rfl) 2147483648 (by rfl)

/-- Claim C7: on a successful decode, a non-placeholder field present in
record frame `i` but absent from record frame `j` renders as the explicit
missing marker in row `j`'s cell — never a default or a carried-forward
value. -/
theorem c7_absent_field_is_missing (frames : List Frame) (t : Table)
    (h : fit_to_pandas frames = .ok t) (i j : ℕ) (fi fj : List Field)
    (hi : (recordFieldLists frames).get? i = some fi)
    (hj : (recordFieldLists frames).get? j = some fj) (c : String)
    (hpresent : ∃ f ∈ fi, f.name = c ∧ nameHasUnknown f.name = false)
    (habsent : ∀ f ∈ fj, f.name ≠ c) (rj : Row)
    (hrj : t.rows.get? j = some rj) :
    cellD rj c = Value.missing := by
  obtain ⟨st, _, hrows, _, hf⟩ := fit_ok_char frames t h
  have hstj : st.rows.get? j = some (recordRow fj) := by
    rw [hrows, List.get?_map, hj]
    rfl
  have hrel : NormRel2 (recordRow fj) rj := forall2_get? hf j _ _ hstj hrj
  have hcell : cellD (recordRow fj) c = Value.missing := by
    unfold cellD
    rw [recordRow_lookup_none fj c habsent]
    rfl
  obtain ⟨hother, hlat, hlong⟩ := normRel2_cells _ _ hrel
  by_cases hc₁ : c = "position_lat"
  · subst hc₁
    exact hlat Value.missing (by rw [hcell]; rfl)
  · by_cases hc₂ : c = "position_long"
    · subst hc₂
      exact hlong Value.missing (by rw [hcell]; rfl)
    · rw [hother c hc₁ hc₂, hcell]

/-- Witness for C7: `heart_rate` is present in the first record frame and
absent from the second; row 1's `heart_rate` cell is the missing marker. -/
theorem c7_witness :
    cellD [("position_lat", Value.rat (scaleQ ((0 : ℤ) : ℚ))),
           ("position_long", Value.rat (scaleQ ((0 : ℤ) : ℚ)))] "heart_rate" =
      Value.missing :=
  c7_absent_field_is_missing
    [Frame.data "record" [⟨"heart_rate", Value.int 142⟩,
      ⟨"position_lat", Value.int 0⟩, ⟨"position_long", Value.int 0⟩],
     Frame.data "record" [⟨"position_lat", Value.int 0⟩,
      ⟨"position_long", Value.int 0⟩]]
    { columns := ["heart_rate", "position_lat", "position_long"],
      rows := [[("heart_rate", Value.int 142),
                ("position_lat", Value.rat (scaleQ ((0 : ℤ) : ℚ))),
                ("position_long", Value.rat (scaleQ ((0 : ℤ) : ℚ)))],
               [("position_lat", Value.rat (scaleQ ((0 : ℤ) : ℚ))),
                ("position_long", Value.rat (scaleQ ((0 : ℤ) : ℚ)))]] }
    (by rfl) 0 1
    [⟨"heart_rate", Value.int 142⟩, ⟨"position_lat", Value.int 0⟩,
     ⟨"position_long", Value.int 0⟩]
    [⟨"position_lat", Value.int 0⟩, ⟨"position_long", Value.int 0⟩]
    (by rfl) (by rfl) "heart_rate"
    ⟨⟨"heart_rate", Value.int 142⟩, by decide⟩
    (by decide)
    [("position_lat", Value.rat (scaleQ ((0 : ℤ) : ℚ))),
     ("position_long", Value.rat (scaleQ ((0 : ℤ) : ℚ)))]
    (by rfl)

/-- Claim C9: the rescaling is not idempotent — applying it twice to any
nonzero value differs from applying it once — and one decode applies it
exactly once to each position cell. -/
theorem c9_not_idempotent_applied_once :
    (∀ n : ℤ, n ≠ 0 → scaleQ (scaleQ (n : ℚ)) ≠ scaleQ (n : ℚ)) ∧
    (∀ (frames : List Frame) (t₀ t : Table), assembleTable frames = .ok t₀ →
      fit_to_pandas frames = .ok t →
      ∀ (j : ℕ) (r₀ r : Row), t₀.rows.get? j = some r₀ → t.rows.get? j = some r →
      (∀ n : ℤ, cellD r₀ "position_lat" = Value.int n →
        cellD r "position_lat" = Value.rat (scaleQ (n : ℚ))) ∧
      (∀ n : ℤ, cellD r₀ "position_long" = Value.int n →
        cellD r "position_long" = Value.rat (scaleQ (n : ℚ)))) := by
  constructor
  · intro n hn heq
    unfold scaleQ at heq
    apply hn
    field_simp at heq
    have h4 : ((n : ℚ) * 360) * (360 * 2 ^ 32) = ((n : ℚ) * 360) * (2 ^ 32 * 2 ^ 32) := by
      linear_combination heq
    rcases mul_eq_mul_left_iff.1 h4 with h5 | h5
    · norm_num at h5
    · have h6 : (n : ℚ) = 0 := by
        rcases mul_eq_zero.1 h5 with h' | h'
        · exact h'
        · norm_num at h'
      exact_mod_cast h6
  · intro frames t₀ t h₀ h j r₀ r hj hr
    have hrel := fit_assemble_cells frames t₀ t h₀ h j r₀ r hj hr
    obtain ⟨_, hlat, hlong⟩ := normRel2_cells _ _ hrel
    constructor
    · intro n hcell
      exact hlat _ (by rw [hcell]; rfl)
    · intro n hcell
      exact hlong _ (by rw [hcell]; rfl)

/-- Witness for C9 at `n = 1` and at a concrete one-record decode. -/
theorem c9_witness :
    scaleQ (scaleQ ((1 : ℤ) : ℚ)) ≠ scaleQ ((1 : ℤ) : ℚ) ∧
    cellD [("position_lat", Value.rat (scaleQ ((1 : ℤ) : ℚ))),
           ("position_long", Value.rat (scaleQ ((2 : ℤ) : ℚ)))] "position_lat" =
      Value.rat (scaleQ ((1 : ℤ) : ℚ)) :=
  ⟨c9_not_idempotent_applied_once.1 1 (by decide),
   (c9_not_idempotent_applied_once.2
     [Frame.data "record" [⟨"position_lat", Value.int 1⟩,
       ⟨"position_long", Value.int 2⟩]]
     { columns := ["position_lat", "position_long"],
       rows := [[("position_lat", Value.int 1), ("position_long", Value.int 2)]] }
     { columns := ["position_lat", "position_long"],
       rows := [[("position_lat", Value.rat (scaleQ ((1 : ℤ) : ℚ))),
                 ("position_long", Value.rat (scaleQ ((2 : ℤ) : ℚ)))]] }
     (by rfl) (by rfl) 0
     [("position_lat", Value.int 1), ("position_long", Value.int 2)]
     [("position_lat", Value.rat (scaleQ ((1 : ℤ) : ℚ))),
      ("position_long", Value.rat (scaleQ ((2 : ℤ) : ℚ)))]
     (by rfl) (by rfl)).1 1 (by rfl)⟩

end NominalGarmin
